import Mathlib

/-!
Shallow embedding of the SMC sampler from `pints/_sequential/__init__.py`
(class `SMCSampler`), together with the pieces of `pints/_log_pdfs.py`
(class `LogPosterior`) that the sampler relies on.

Conventions:
* Python floats are modelled as real numbers (`ℝ`) where the source does
  arithmetic with transcendental functions (`exp`, `log`), and as rationals
  (`ℚ`) where only comparisons and exact equality tests occur, so that the
  validation logic stays decidable.
* Particle positions live in an arbitrary type `α`; log-densities are
  functions `α → ℝ`.
* Python exceptions are modelled with `Except String` (the string is the
  error message from the source).
* Randomness (`np.random.multivariate_normal`) is modelled by a `draw`
  function supplied in the sampler state: one fixed realisation of the draws.
-/

namespace SMC

/-! ### Tempered distribution and weight updates
    (`SMCSampler._tempered_distribution`, `_w_tilde`, `_new_weight`,
    `_new_weights`, lines 331-368) -/

/-- `SMCSampler._tempered_distribution`:
`beta * self._log_posterior(x) + (1 - beta) * self._log_prior(x)`. -/
noncomputable def temperedDistribution (logPost logPrior : α → ℝ) (x : α) (beta : ℝ) : ℝ :=
  beta * logPost x + (1 - beta) * logPrior x

/-- `SMCSampler._w_tilde`: the log unnormalised incremental weight,
`_tempered_distribution(x_old, beta_new) - _tempered_distribution(x_old, beta_old)`. -/
noncomputable def wTilde (logPost logPrior : α → ℝ) (xOld _xNew : α) (betaOld betaNew : ℝ) : ℝ :=
  temperedDistribution logPost logPrior xOld betaNew
    - temperedDistribution logPost logPrior xOld betaOld

/-- `SMCSampler._new_weight`: `np.log(w_old) + w_tilde_value`. -/
noncomputable def newWeight (logPost logPrior : α → ℝ) (wOld : ℝ) (xOld xNew : α)
    (betaOld betaNew : ℝ) : ℝ :=
  Real.log wOld + wTilde logPost logPrior xOld xNew betaOld betaNew

/-- `scipy.special.logsumexp` on a finite vector: `log (Σ_i exp (v i))`. -/
noncomputable def logsumexp (v : Fin n → ℝ) : ℝ :=
  Real.log (∑ i, Real.exp (v i))

/-- `SMCSampler._new_weights`: builds the vector of new log-weights with
`_new_weight` and returns `np.exp(w_new - logsumexp(w_new))`. -/
noncomputable def newWeights (logPost logPrior : α → ℝ) (wOld : Fin n → ℝ)
    (samplesOld samplesNew : Fin n → α) (betaOld betaNew : ℝ) : Fin n → ℝ :=
  let wNew : Fin n → ℝ := fun i =>
    newWeight logPost logPrior (wOld i) (samplesOld i) (samplesNew i) betaOld betaNew
  fun i => Real.exp (wNew i - logsumexp wNew)

/-! ### `LogPosterior.__call__` from `pints/_log_pdfs.py`
`log_prior(x) + log_likelihood(x)` (the `-inf` short-circuit is invisible in
real arithmetic: it only skips evaluating the likelihood when the prior is
`-inf`). -/

/-- `LogPosterior.__call__`: the posterior log-density is the sum of the prior
log-density and the log-likelihood. -/
noncomputable def logPosteriorCall (logL logPrior : α → ℝ) (x : α) : ℝ :=
  logPrior x + logL x

/-! ### Population initialisation (`SMCSampler._initialise`, lines 110-125)
The weight stored for particle `i` is
`schedule[1] * log_posterior(x_i) + (1 - schedule[1]) * log_prior(x_i) - log_prior(x_i)`. -/

/-- The weight assigned to a particle by `SMCSampler._initialise`:
`self._schedule[1] * self._samples_log_pdf[i] + (1 - self._schedule[1]) * log_prior_pdf
 - log_prior_pdf` where `self._samples_log_pdf[i] = self._log_posterior(self._samples[i])`
and `log_prior_pdf = self._log_prior(self._samples[i])`. -/
noncomputable def initialiseWeight (logPost logPrior : α → ℝ) (beta1 : ℝ) (x : α) : ℝ :=
  beta1 * logPost x + (1 - beta1) * logPrior x - logPrior x

/-! ### Temperature schedule (`SMCSampler.set_temperature_schedule`, lines 164-211) -/

/-- `np.linspace a b num`: `num` evenly spaced points from `a` to `b`
(`a + (b - a) * i / (num - 1)` for `i = 0, …, num - 1`). -/
noncomputable def linspace (a b : ℝ) (num : ℕ) : List ℝ :=
  (List.range num).map (fun i : ℕ => a + (b - a) * (i : ℝ) / ((num - 1 : ℕ) : ℝ))

/-- The integer branch of `set_temperature_schedule`:
`np.exp(np.linspace(np.log(0.0001), 0, schedule))`. -/
noncomputable def generatedSchedule (schedule : ℕ) : List ℝ :=
  (linspace (Real.log 0.0001) 0 schedule).map Real.exp

/-- `set_temperature_schedule` called with a scalar (`np.isscalar` branch):
rejects values below 2, otherwise stores the log-uniform schedule. -/
noncomputable def setTemperatureScheduleInt (schedule : ℤ) : Except String (List ℝ) :=
  if schedule < 2 then
    .error "A schedule must contain at least two temperatures."
  else
    .ok (generatedSchedule schedule.toNat)

/-- `set_temperature_schedule` called with a list (the `else` branch):
length check, first-element check, range checks, then the schedule is stored
as given.  Comparisons are exact in the source, so the embedding uses `ℚ`. -/
def setTemperatureScheduleList (schedule : List ℚ) : Except String (List ℚ) :=
  if schedule.length < 2 then
    .error "A schedule must contain at least two temperatures."
  else if schedule.head? ≠ some 0 then
    .error "First element of temperature schedule must be 0."
  else if schedule.any (fun t => t < 0) then
    .error "Temperatures must be non-negative."
  else if schedule.any (fun t => t > 1) then
    .error "Temperatures cannot exceed 1."
  else
    .ok schedule

/-! ### Sampler state and configuration setters -/

/-- The slice of `SMCSampler`'s mutable state that the configuration setters
and `_initialise` touch.  `draw i` stands for the `i`-th row returned by
`np.random.multivariate_normal(mean=self._mu, cov=self._sigma, size=self._particles)`. -/
structure SamplerState (α : Type) where
  particles : ℕ
  draw : ℕ → α
  logPost : α → ℝ
  logPrior : α → ℝ
  schedule1 : ℝ
  samples : List α
  samplesLogPdf : List ℝ
  weights : List ℝ

/-- `SMCSampler._initialise`: redraws `self._particles` samples and recomputes
`self._samples_log_pdf` and `self._weights` from them.  Note that the number
of particles used is the stored `self._particles`. -/
noncomputable def initialise (st : SamplerState α) : SamplerState α :=
  let samples := (List.range st.particles).map st.draw
  { st with
    samples := samples
    samplesLogPdf := samples.map st.logPost
    weights := samples.map (initialiseWeight st.logPost st.logPrior st.schedule1) }

/-- `SMCSampler.set_particles`: raises when `particles < 10`, otherwise calls
`self._initialise()`.  The requested value is never assigned to
`self._particles`, exactly as in the source. -/
noncomputable def setParticles (particles : ℤ) (st : SamplerState α) :
    Except String (SamplerState α) :=
  if particles < 10 then
    .error "Must have more than 10 particles in SMC."
  else
    .ok (initialise st)

/-- `SMCSampler.set_ess_threshold`: rejects thresholds above the particle
count, then thresholds below zero, and stores the rest. -/
def setEssThreshold (essThreshold : ℚ) (particles : ℕ) : Except String ℚ :=
  if essThreshold > particles then
    .error "ESS threshold must be below actual sample size."
  else if essThreshold < 0 then
    .error "ESS must be greater than zero."
  else
    .ok essThreshold

/-! ### The constructor's prior selection (`SMCSampler.__init__`, lines 30-32
and 60-67) -/

/-- What kind of object is passed as `log_posterior` to the constructor:
not a `pints.LogPDF` at all, a `LogPDF` that is not a `LogPosterior` (with its
density and parameter count), or a full `LogPosterior` (with likelihood, prior
and parameter count). -/
inductive PosteriorArg (α : Type) where
  | notLogPDF
  | plainLogPDF (f : α → ℝ) (nParameters : ℕ)
  | logPosterior (logL logPrior : α → ℝ) (nParameters : ℕ)

/-- The prior the constructor ends up storing in `self._log_prior`: either the
`_log_prior` of the given `LogPosterior`, or
`pints.UniformLogPrior(np.repeat(-100, d), np.repeat(+100, d))` — represented
by the bound vectors passed to `UniformLogPrior`. -/
inductive PriorChoice (α : Type) where
  | fromPosterior (logPrior : α → ℝ)
  | uniformBox (lower upper : List ℤ)

/-- `self._dimension = self._log_posterior.n_parameters()` (line 60). -/
def argDimension : PosteriorArg α → ℕ
  | .notLogPDF => 0
  | .plainLogPDF _ d => d
  | .logPosterior _ _ d => d

/-- The prior-selection logic of `SMCSampler.__init__`: raise unless the
argument extends `pints.LogPDF`; substitute a uniform prior on
`[-100, 100]^d` when it is not a `pints.LogPosterior`; otherwise reuse the
posterior's own prior. -/
def chooseLogPrior : PosteriorArg α → Except String (PriorChoice α)
  | .notLogPDF => .error "Given posterior function must extend pints.LogPDF"
  | .plainLogPDF _ d =>
      .ok (.uniformBox (List.replicate d (-100)) (List.replicate d 100))
  | .logPosterior _ logPrior _ => .ok (.fromPosterior logPrior)

/-! ### `SMCSampler.run` attribute accesses (lines 228-329)
`run` reads `self._chains` (parallel branch), `self._log_likelihood`
(sequential branch) and `self._iterations`, none of which is ever assigned
anywhere in the class; `__init__` leaves them unset.  The embedding records
which of these attributes exist on the object and replays the reads of `run`
in source order. -/

/-- The run-loop attributes of the sampler object: `none` means the attribute
was never assigned, so reading it raises `AttributeError`. -/
structure RunAttrs where
  parallel : Bool
  chains : Option ℕ
  logLikelihood : Option Unit
  iterations : Option ℕ

/-- How a call to `run` can terminate in the error model: a Python
`AttributeError` on an undefined attribute, or the spec's `StateError`. -/
inductive RunError where
  | attributeError (name : String)
  | stateError (msg : String)
deriving DecidableEq

/-- The attribute state `SMCSampler.__init__` leaves behind: it assigns
`_parallel` (via `set_parallel()`, giving `False` unless later reconfigured)
but never `_chains`, `_log_likelihood` or `_iterations`. -/
def initAttrs (parallel : Bool) : RunAttrs :=
  { parallel := parallel
    chains := none
    logLikelihood := none
    iterations := none }

/-- The reads `SMCSampler.run` performs before its main loop, in source
order: `self._chains` when parallel, `self._log_likelihood` otherwise, then
`self._iterations` for the progress logger / loop bound. -/
def runModel (st : RunAttrs) : Except RunError Unit := do
  if st.parallel then
    match st.chains with
    | none => throw (.attributeError "_chains")
    | some _ => pure ()
  else
    match st.logLikelihood with
    | none => throw (.attributeError "_log_likelihood")
    | some _ => pure ()
  match st.iterations with
  | none => throw (.attributeError "_iterations")
  | some _ => pure ()

/-- Whether a run outcome is the spec's `StateError`. -/
def isStateError : Except RunError Unit → Bool
  | .error (.stateError _) => true
  | _ => false

/-- A concrete sampler state used to instantiate the theorems below: 11
particles, all draws at the origin, a `LogPosterior` with log-likelihood `0`
and log-prior `1`, and second schedule temperature `1/2`. -/
noncomputable def demoState : SamplerState ℝ :=
  SamplerState.mk 11 (fun _ => 0) (logPosteriorCall (fun _ => 0) (fun _ => 1))
    (fun _ => 1) (1 / 2) [] [] []

/-! ## Theorems -/

/-- C1: the normalized weight vector returned by `_new_weights` sums to 1:
with at least one particle, the values `exp(w_new i - logsumexp w_new)` form
a proper probability vector over the particle indices. -/
theorem new_weights_sum_to_one {α : Type} (n : ℕ) (hn : 0 < n)
    (logPost logPrior : α → ℝ) (wOld : Fin n → ℝ)
    (samplesOld samplesNew : Fin n → α) (betaOld betaNew : ℝ) :
    ∑ i, newWeights logPost logPrior wOld samplesOld samplesNew betaOld betaNew i
      = 1 := by
  have hne : (Finset.univ : Finset (Fin n)).Nonempty :=
    ⟨⟨0, hn⟩, Finset.mem_univ _⟩
  have hS : 0 < ∑ j, Real.exp (newWeight logPost logPrior (wOld j)
      (samplesOld j) (samplesNew j) betaOld betaNew) :=
    Finset.sum_pos (fun j _ => Real.exp_pos _) hne
  simp only [newWeights, logsumexp, Real.exp_sub, Real.exp_log hS]
  rw [← Finset.sum_div, div_self (ne_of_gt hS)]

/-- Witness for C1: one particle, constant densities, old weight 1,
temperatures 0 and 1. -/
theorem new_weights_sum_to_one_witness :
    0 < 1
      ∧ ∑ i : Fin 1, newWeights (fun _ : ℝ => 0) (fun _ => 0) (fun _ => 1)
          (fun _ => 0) (fun _ => 0) 0 1 i = 1 :=
  ⟨by decide, new_weights_sum_to_one 1 (by decide) (fun _ : ℝ => 0) (fun _ => 0)
    (fun _ => 1) (fun _ => 0) (fun _ => 0) 0 1⟩

/-- C2: `_w_tilde` equals the tempered-target difference
`target(x_old, beta_new) - target(x_old, beta_old)` with
`target(x, beta) = beta * posterior(x) + (1 - beta) * prior(x)`, it does not
depend on `x_new`, and `_new_weight` is `log w_old` plus that increment. -/
theorem w_tilde_new_weight_spec {α : Type} (logPost logPrior : α → ℝ)
    (xOld xNew : α) (wOld betaOld betaNew : ℝ) :
    wTilde logPost logPrior xOld xNew betaOld betaNew
        = (betaNew * logPost xOld + (1 - betaNew) * logPrior xOld)
          - (betaOld * logPost xOld + (1 - betaOld) * logPrior xOld)
      ∧ (∀ y : α, wTilde logPost logPrior xOld y betaOld betaNew
          = wTilde logPost logPrior xOld xNew betaOld betaNew)
      ∧ newWeight logPost logPrior wOld xOld xNew betaOld betaNew
          = Real.log wOld + wTilde logPost logPrior xOld xNew betaOld betaNew :=
  ⟨rfl, fun _ => rfl, rfl⟩

/-- Counterexample to C3: with log-likelihood `0`, log-prior `1` and
`β₁ = 1/2`, `_initialise` (which evaluates `self._log_posterior`, i.e.
`logPrior + logL`) stores the weight `0`, while the claim's formula
`β₁·logL + (1-β₁)·logPrior - logPrior` gives `-1/2`. -/
theorem initial_weight_not_likelihood_formula :
    initialiseWeight (logPosteriorCall (fun _ : ℝ => 0) (fun _ => 1)) (fun _ => 1)
        (1 / 2) 0
      ≠ (1 / 2) * 0 + (1 - 1 / 2) * 1 - 1 := by
  norm_num [initialiseWeight, logPosteriorCall]

/-- C3 (amended): after `_initialise`, the stored weight of particle `i` is
`β₁·logPost(xᵢ) + (1-β₁)·logPrior(xᵢ) - logPrior(xᵢ)` where `logPost` is the
posterior log-density (not the log-likelihood); when the posterior is a
`LogPosterior` (so `logPost = logPrior + logL`), this equals `β₁·logL(xᵢ)`. -/
theorem initialise_weight_uses_posterior_density {α : Type}
    (logL logPrior : α → ℝ) (st : SamplerState α)
    (hpost : st.logPost = logPosteriorCall logL logPrior)
    (hprior : st.logPrior = logPrior) (i : ℕ) (hi : i < st.particles) :
    ((initialise st).weights)[i]?
        = some (st.schedule1 * st.logPost (st.draw i)
            + (1 - st.schedule1) * st.logPrior (st.draw i)
            - st.logPrior (st.draw i))
      ∧ ((initialise st).weights)[i]?
        = some (st.schedule1 * logL (st.draw i)) := by
  have hw : ((initialise st).weights)[i]?
      = some (initialiseWeight st.logPost st.logPrior st.schedule1 (st.draw i)) := by
    simp [initialise, List.getElem?_map, List.getElem?_range, hi]
  refine ⟨by rw [hw]; rfl, ?_⟩
  rw [hw, hpost, hprior]
  simp only [initialiseWeight, logPosteriorCall, Option.some.injEq]
  ring

/-- Witness for the amended C3 at `demoState` (particle 0). -/
theorem initialise_weight_uses_posterior_density_witness :
    ((initialise demoState).weights)[0]?
        = some (demoState.schedule1 * demoState.logPost (demoState.draw 0)
            + (1 - demoState.schedule1) * demoState.logPrior (demoState.draw 0)
            - demoState.logPrior (demoState.draw 0))
      ∧ ((initialise demoState).weights)[0]?
        = some (demoState.schedule1 * 0) :=
  initialise_weight_uses_posterior_density (fun _ => 0) (fun _ => 1) demoState
    rfl rfl 0 (by decide)

/-- C6 (evaluating the code at the claim's boundary): `set_particles` tests
`particles < 10`, so 10 particles are accepted — although the raised message
says "Must have more than 10 particles" — while 9 are rejected; every count
at least 10 succeeds and every count below 10 raises. -/
theorem setParticles_boundary {α : Type} (st : SamplerState α) :
    setParticles 10 st = Except.ok (initialise st)
      ∧ setParticles 9 st
          = Except.error "Must have more than 10 particles in SMC."
      ∧ (∀ p : ℤ, 10 ≤ p → setParticles p st = Except.ok (initialise st))
      ∧ ∀ p : ℤ, p < 10 → setParticles p st
          = Except.error "Must have more than 10 particles in SMC." := by
  refine ⟨by norm_num [setParticles], by norm_num [setParticles], ?_, ?_⟩
  · intro p hp
    rw [setParticles, if_neg (not_lt.mpr hp)]
  · intro p hp
    rw [setParticles, if_pos hp]

/-- C7 (evaluating the code at the claim's boundary): `set_ess_threshold`
tests `ess_threshold < 0`, so the threshold 0 is accepted for every particle
count — although the raised message says "ESS must be greater than zero" and
the claim's interval `(0, n_particles]` excludes 0 — while negative
thresholds and thresholds above the particle count are rejected. -/
theorem setEssThreshold_accepts_zero (particles : ℕ) :
    setEssThreshold 0 particles = Except.ok 0
      ∧ (∀ t : ℚ, t < 0 → setEssThreshold t particles
          = Except.error "ESS must be greater than zero.")
      ∧ ∀ t : ℚ, (particles : ℚ) < t → setEssThreshold t particles
          = Except.error "ESS threshold must be below actual sample size." := by
  refine ⟨?_, ?_, ?_⟩
  · rw [setEssThreshold, if_neg (not_lt.mpr (Nat.cast_nonneg particles)),
      if_neg (lt_irrefl 0)]
  · intro t ht
    rw [setEssThreshold]
    split_ifs with h1
    · exact absurd (ht.trans_le (Nat.cast_nonneg particles)) (not_lt.mpr h1.le)
    · rfl
  · intro t ht
    rw [setEssThreshold, if_pos ht]

/-- C8 (evaluating the code): with the attributes `__init__` leaves behind,
every call to `run` fails at once with an `AttributeError` on an attribute the
class never assigns — `_log_likelihood` in the sequential branch, `_chains` in
the parallel branch — and never with the spec's `StateError`: the class tracks
no initialized/completed run state at all. -/
theorem run_always_attribute_error :
    runModel (initAttrs false)
        = Except.error (RunError.attributeError "_log_likelihood")
      ∧ runModel (initAttrs true)
        = Except.error (RunError.attributeError "_chains")
      ∧ ∀ parallel : Bool, isStateError (runModel (initAttrs parallel)) = false := by
  refine ⟨rfl, rfl, ?_⟩
  intro parallel
  cases parallel <;> rfl

/-- C10: a `LogPDF` that is not a `LogPosterior` is accepted by the
constructor, which silently stores
`UniformLogPrior(np.repeat(-100, d), np.repeat(100, d))` as the log-prior,
`d` being the model's parameter count. -/
theorem chooseLogPrior_plain_pdf {α : Type} (f : α → ℝ) (d : ℕ) :
    chooseLogPrior (PosteriorArg.plainLogPDF f d)
        = Except.ok (PriorChoice.uniformBox
            (List.replicate d (-100)) (List.replicate d 100))
      ∧ argDimension (PosteriorArg.plainLogPDF f d) = d :=
  ⟨rfl, rfl⟩

/-! ### Helper lemmas on the generated temperature schedule -/

lemma generatedSchedule_length (K : ℕ) : (generatedSchedule K).length = K := by
  unfold generatedSchedule linspace
  rw [List.length_map, List.length_map, List.length_range]

lemma generatedSchedule_getElem (K i : ℕ) (hi : i < K) :
    (generatedSchedule K)[i]?
      = some (Real.exp (Real.log 0.0001
          + (0 - Real.log 0.0001) * i / ((K - 1 : ℕ) : ℝ))) := by
  have h1 : (List.range K)[i]? = some i := by
    simp [List.getElem?_range, hi]
  unfold generatedSchedule linspace
  rw [List.getElem?_map, List.getElem?_map, h1]
  rfl

lemma generatedSchedule_head (K : ℕ) (hK : 0 < K) :
    (generatedSchedule K).head? = some ((1 : ℝ) / 10000) := by
  rw [List.head?_eq_getElem? _, generatedSchedule_getElem K 0 hK]
  have h0 : Real.log 0.0001
      + (0 - Real.log 0.0001) * ((0 : ℕ) : ℝ) / ((K - 1 : ℕ) : ℝ)
      = Real.log 0.0001 := by
    push_cast
    ring
  rw [h0, Real.exp_log (by norm_num)]
  norm_num

lemma generatedSchedule_getLast (K : ℕ) (hK : 2 ≤ K) :
    (generatedSchedule K).getLast? = some 1 := by
  rw [List.getLast?_eq_getElem? _, generatedSchedule_length,
    generatedSchedule_getElem K (K - 1) (by omega)]
  have hc : ((K - 1 : ℕ) : ℝ) ≠ 0 := Nat.cast_ne_zero.mpr (by omega)
  rw [mul_div_assoc, div_self hc, mul_one]
  have h0 : Real.log 0.0001 + (0 - Real.log 0.0001) = 0 := by ring
  rw [h0, Real.exp_zero]

lemma generatedSchedule_sorted (K : ℕ) :
    (generatedSchedule K).Sorted (· ≤ ·) := by
  have ha : (0 : ℝ)
      ≤ (0 - Real.log 0.0001) / ((K - 1 : ℕ) : ℝ) := by
    have hlog : Real.log 0.0001 ≤ 0 :=
      Real.log_nonpos (by norm_num) (by norm_num)
    exact div_nonneg (by linarith) (Nat.cast_nonneg _)
  have key : ∀ i j : ℕ, i < j →
      Real.exp (Real.log 0.0001 + (0 - Real.log 0.0001) * i / ((K - 1 : ℕ) : ℝ))
        ≤ Real.exp (Real.log 0.0001
            + (0 - Real.log 0.0001) * j / ((K - 1 : ℕ) : ℝ)) := by
    intro i j hij
    apply Real.exp_le_exp.mpr
    have hcast : (i : ℝ) ≤ (j : ℝ) := Nat.cast_le.mpr hij.le
    have hmul := mul_le_mul_of_nonneg_left hcast ha
    calc Real.log 0.0001 + (0 - Real.log 0.0001) * i / ((K - 1 : ℕ) : ℝ)
        = Real.log 0.0001
            + (0 - Real.log 0.0001) / ((K - 1 : ℕ) : ℝ) * i := by ring
      _ ≤ Real.log 0.0001
            + (0 - Real.log 0.0001) / ((K - 1 : ℕ) : ℝ) * j := by linarith
      _ = Real.log 0.0001
            + (0 - Real.log 0.0001) * j / ((K - 1 : ℕ) : ℝ) := by ring
  unfold generatedSchedule linspace
  rw [List.map_map]
  refine List.Pairwise.map _ ?_ (List.pairwise_lt_range K)
  intro a b hab
  exact key a b hab

/-- Counterexample to C4: the explicit schedule `[0, 1, 0]` is accepted and
stored by `set_temperature_schedule` even though it is decreasing and its
last element is not 1. -/
theorem accepted_schedule_violates_invariants :
    setTemperatureScheduleList [0, 1, 0] = Except.ok [0, 1, 0]
      ∧ ¬ (([0, 1, 0] : List ℚ).getLast? = some 1
            ∧ ([0, 1, 0] : List ℚ).Sorted (· ≤ ·)) := by
  constructor
  · rfl
  · intro h
    exact absurd (h.2.rel_get_of_lt (by decide : (1 : Fin 3) < 2)) (by decide)

/-- C4 (amended): an integer-generated schedule starts at `0.0001` (not 0),
ends at exactly 1 and is non-decreasing; an accepted explicit schedule is
stored as given, starts at exactly 0 and has all entries in `[0, 1]`, but is
not forced to be non-decreasing or to end at 1. -/
theorem set_temperature_schedule_invariants :
    (∀ K : ℤ, 2 ≤ K → ∃ l : List ℝ,
        setTemperatureScheduleInt K = Except.ok l
          ∧ l.head? = some ((1 : ℝ) / 10000) ∧ l.getLast? = some 1
          ∧ l.Sorted (· ≤ ·))
      ∧ ∀ s t : List ℚ, setTemperatureScheduleList s = Except.ok t →
          t = s ∧ t.head? = some 0 ∧ ∀ x ∈ t, 0 ≤ x ∧ x ≤ 1 := by
  constructor
  · intro K hK
    refine ⟨generatedSchedule K.toNat, ?_,
      generatedSchedule_head _ (by omega), generatedSchedule_getLast _ (by omega),
      generatedSchedule_sorted _⟩
    rw [setTemperatureScheduleInt, if_neg (by omega)]
  · intro s t h
    rw [setTemperatureScheduleList] at h
    split_ifs at h with h1 h2 h3 h4
    injection h with h
    subst h
    refine ⟨rfl, not_not.mp h2, ?_⟩
    intro x hx
    simp only [List.any_eq_true, decide_eq_true_eq, not_exists, not_and,
      not_lt] at h3 h4
    exact ⟨h3 x hx, h4 x hx⟩

/-- Witness for the amended C4: the generated schedule for `K = 2` and the
accepted explicit schedule `[0, 1]`. -/
theorem set_temperature_schedule_invariants_witness :
    (∃ l : List ℝ, setTemperatureScheduleInt 2 = Except.ok l
        ∧ l.head? = some ((1 : ℝ) / 10000) ∧ l.getLast? = some 1
        ∧ l.Sorted (· ≤ ·))
      ∧ (([0, 1] : List ℚ) = [0, 1] ∧ ([0, 1] : List ℚ).head? = some 0
          ∧ ∀ x ∈ ([0, 1] : List ℚ), 0 ≤ x ∧ x ≤ 1) :=
  ⟨set_temperature_schedule_invariants.1 2 (by decide),
    set_temperature_schedule_invariants.2 [0, 1] [0, 1] rfl⟩

/-- Counterexample to C5: the schedule `[0, 1, 0, 1]`, which is decreasing at
position 1 → 2, passes every check of `set_temperature_schedule` and is
accepted instead of raising. -/
theorem decreasing_schedule_accepted :
    setTemperatureScheduleList [0, 1, 0, 1] = Except.ok [0, 1, 0, 1]
      ∧ ¬ ([0, 1, 0, 1] : List ℚ).Sorted (· ≤ ·) := by
  constructor
  · rfl
  · intro h
    exact absurd (h.rel_get_of_lt (by decide : (1 : Fin 4) < 2)) (by decide)

/-- C5 (amended): `set_temperature_schedule` raises for an explicit schedule
with fewer than 2 elements, a first element other than 0, or any entry
outside `[0, 1]`; it performs no monotonicity check. -/
theorem set_temperature_schedule_rejects (s : List ℚ)
    (h : s.length < 2 ∨ s.head? ≠ some 0 ∨ ∃ x ∈ s, x < 0 ∨ 1 < x) :
    ∃ msg, setTemperatureScheduleList s = Except.error msg := by
  rw [setTemperatureScheduleList]
  split_ifs with h1 h2 h3 h4
  · exact ⟨_, rfl⟩
  · exact ⟨_, rfl⟩
  · exact ⟨_, rfl⟩
  · exact ⟨_, rfl⟩
  · exfalso
    simp only [List.any_eq_true, decide_eq_true_eq, not_exists, not_and,
      not_lt] at h3 h4
    rcases h with h | h | ⟨x, hx, hlt | hgt⟩
    · exact h1 h
    · exact h2 h
    · exact absurd hlt (not_lt.mpr (h3 x hx))
    · exact absurd hgt (not_lt.mpr (h4 x hx))

/-- Witness for the amended C5 at the empty schedule. -/
theorem set_temperature_schedule_rejects_witness :
    (([] : List ℚ).length < 2 ∨ ([] : List ℚ).head? ≠ some 0
        ∨ ∃ x ∈ ([] : List ℚ), x < 0 ∨ 1 < x)
      ∧ ∃ msg, setTemperatureScheduleList [] = Except.error msg :=
  ⟨Or.inl (by decide), set_temperature_schedule_rejects [] (Or.inl (by decide))⟩

/-- C9: `set_particles p` with an accepted `p` never changes the particle
count: the population is re-initialised with the stored `self._particles`,
the requested `p` is discarded (any accepted `q` gives the same result), and
the samples, log-pdf and weight arrays all keep length `st.particles`. -/
theorem setParticles_discards_request {α : Type} (p : ℤ) (st : SamplerState α)
    (hp : ¬ p < 10) :
    ∃ st' : SamplerState α, setParticles p st = Except.ok st'
      ∧ st'.particles = st.particles
      ∧ st'.samples.length = st.particles
      ∧ st'.samplesLogPdf.length = st.particles
      ∧ st'.weights.length = st.particles
      ∧ ∀ q : ℤ, ¬ q < 10 → setParticles q st = setParticles p st := by
  refine ⟨initialise st, ?_, rfl, ?_, ?_, ?_, ?_⟩
  · rw [setParticles, if_neg hp]
  · simp [initialise]
  · simp [initialise]
  · simp [initialise]
  · intro q hq
    rw [setParticles, if_neg hq, setParticles, if_neg hp]

/-- Witness for C9 at `demoState` with the accepted request 99. -/
theorem setParticles_discards_request_witness :
    ∃ st' : SamplerState ℝ, setParticles 99 demoState = Except.ok st'
      ∧ st'.particles = demoState.particles
      ∧ st'.samples.length = demoState.particles
      ∧ st'.samplesLogPdf.length = demoState.particles
      ∧ st'.weights.length = demoState.particles
      ∧ ∀ q : ℤ, ¬ q < 10 → setParticles q demoState = setParticles 99 demoState :=
  setParticles_discards_request 99 demoState (by decide)

end SMC
